import Mathlib

/-!
Shallow embedding of the core of the `microeconomics` actor simulation
(`src/preference_list.rs`, `src/items/discretes.rs`) and verification of the
specification's claims about it.

Modelling conventions:
* Rust `HashMap`s are modelled as association lists in insertion order
  (`alookup`/`ainsert`/`aremove`); the source's `HashMap` iteration order is
  unspecified, and the association-list order is a fixed determinization of it.
* Rust `BinaryHeap` is modelled by its underlying vector (a `List`), with
  `heap_push` performing the sift-up of `BinaryHeap::push` (comparisons are
  made with the sifted element on the left, as in `sift_up`, where
  `hole.element() <= hole.get(parent)` calls `PartialOrd` on the new element).
  Only `push`, `peek` and in-order iteration are used by the source.
* `GoalWrapper`'s boxed comparator closure closes over a clone of the actor's
  goal hierarchy taken when the wrapper is created (`add_goal`); the wrapper is
  modelled as that snapshot together with the goal, and `gw_cmp` is the
  embedded `Ord for GoalWrapper`.
* Actor names are the number N of the `Actor#N` naming scheme used by the
  driver; the source compares names via `format!("Actor#{i}") == self.name`
  and parses the number back out, which on such names is numeric equality.
* `RefCell` borrow state during `Actor::tick` is modelled by passing the actor
  list as `List (Option Actor)`, where `none` marks the slot of the ticking
  actor itself (mutably borrowed, so `try_borrow` fails and `borrow_mut`
  panics).
* Panics (`unwrap`, out-of-bounds indexing, `unreachable!`) are modelled by
  `Option`-valued functions returning `none`.
-/

set_option maxRecDepth 4000

/-- Item enumeration from `src/items/discretes.rs`. -/
inductive Item where
  | FoodUnit
  | HouseUnit
  | LeisureUnit1
  | LeisureUnit2
deriving DecidableEq, Repr, Inhabited

/-- Goal enumeration from `src/items/discretes.rs`. -/
inductive Goal where
  | Eat
  | Shelter
  | Rest
  | Leisure
deriving DecidableEq, Repr, Inhabited

/-- GoalData from `preference_list.rs`: per-goal bookkeeping metadata.
Field order follows the source: `Satisfaction \x7b goal, units_required, units,
id \x7d` and `RegularSatisfaction \x7b goal, time_required, time,
units_required, units, id \x7d`. Rust `i32` fields are modelled as `Int`
(all values involved stay far from the `i32` bounds). -/
inductive GoalData where
  | Satisfaction (goal : Goal) (units_required : Int) (units : Int) (id : Int)
  | RegularSatisfaction (goal : Goal) (time_required : Int) (time : Int)
      (units_required : Int) (units : Int) (id : Int)
deriving DecidableEq, Repr

/-- GoalData::get_goal. -/
def GoalData.get_goal : GoalData → Goal
  | .Satisfaction g _ _ _ => g
  | .RegularSatisfaction g _ _ _ _ _ => g

/-- Association-list lookup, modelling `HashMap::get`. -/
def alookup {α β : Type} [DecidableEq α] : List (α × β) → α → Option β
  | [], _ => none
  | (k, v) :: rest, key => if k = key then some v else alookup rest key

/-- Association-list insert/overwrite, modelling `HashMap::insert`. -/
def ainsert {α β : Type} [DecidableEq α] : List (α × β) → α → β → List (α × β)
  | [], key, v => [(key, v)]
  | (k, w) :: rest, key, v =>
      if k = key then (k, v) :: rest else (k, w) :: ainsert rest key v

/-- Association-list removal, modelling `HashMap::remove`. -/
def aremove {α β : Type} [DecidableEq α] (m : List (α × β)) (key : α) :
    List (α × β) :=
  m.filter (fun p => p.1 ≠ key)

/-- Rust `usize::cmp` (and `Ord` on ranks). -/
def usizeCmp (x y : Nat) : Ordering :=
  if x < y then .lt else if x = y then .eq else .gt

/-- Rust `i32 → usize` cast (`as usize`), two's-complement on a 64-bit target. -/
def asUsize (i : Int) : Nat := (i % (2 ^ 64 : Int)).toNat

/-- GoalWrapper: the comparator closure is represented by the snapshot of the
goal hierarchy it captured (`let gh = self.goal_hierarchy.clone()` in
`add_goal`), plus the wrapped goal. -/
structure GoalWrapper where
  gh : List (Goal × Nat)
  goal : Goal
deriving DecidableEq, Repr

/-- Ord for GoalWrapper: `(self.comparator)(&self.goal, &other.goal)`, i.e.
both goals are ranked through the snapshot captured by the left (self)
wrapper; `xval.and_then(|x| yval.map(|y| x.cmp(y))).unwrap_or(Equal)`. -/
def gw_cmp (a b : GoalWrapper) : Ordering :=
  match alookup a.gh a.goal, alookup a.gh b.goal with
  | some x, some y => usizeCmp x y
  | _, _ => .eq

/-- One sift-up step chain of `BinaryHeap::push`: the newly pushed element at
position `pos` is swapped with its parent while it compares `Greater` to it.
The `fuel` argument only drives structural recursion; the chain of parent
positions is strictly decreasing, so `fuel = pos` always suffices. -/
def siftUp (data : List GoalWrapper) : Nat → Nat → List GoalWrapper
  | 0, _ => data
  | _, 0 => data
  | fuel + 1, pos + 1 =>
      let parent := pos / 2
      match data[pos + 1]?, data[parent]? with
      | some e, some p =>
          if gw_cmp e p = .gt then
            siftUp ((data.set parent e).set (pos + 1) p) fuel parent
          else data
      | _, _ => data

/-- BinaryHeap::push on the underlying vector. -/
def heap_push (data : List GoalWrapper) (e : GoalWrapper) : List GoalWrapper :=
  siftUp (data ++ [e]) data.length data.length

/-- BinaryHeap::peek: the root of the heap is element 0 of the vector. -/
def heap_peek (data : List GoalWrapper) : Option GoalWrapper :=
  data.head?

/-- The actor's bargaining state (`enum ActorState`), including the source's
spelling of `BidRecipiant`. -/
inductive ActorState where
  | SearchingForGoal
  | WillingToTrade (idx : Int)
  | FoundTradePartner (idx : Nat)
  | Bidding (idx : Nat) (prev_item1 : Int) (prev_item2 : Int)
  | BidRecipiant (idx : Nat) (item : Option Item) (offer : Option (Nat × Item))
deriving DecidableEq, Repr

/-- The Actor struct of `preference_list.rs`. `name` is the N of `Actor#N`. -/
structure Actor where
  name : Nat
  goal_registry : List (Goal × GoalData)
  current_goals : List GoalWrapper
  preference_list : List (Item × List GoalWrapper)
  satisfactions : List (Goal × List Item)
  goal_hierarchy : List (Goal × Nat)
  inventory : List Item
  state : ActorState
deriving DecidableEq, Repr

/-- Actor::get_best_goal: peek the heap of the item in the preference list. -/
def Actor.get_best_goal (a : Actor) (item : Item) : Option Goal :=
  (alookup a.preference_list item).bind (fun goals =>
    (heap_peek goals).map (fun og => og.goal))

/-- Actor::compare_item_values, the exact branch structure of the source. -/
def Actor.compare_item_values (a : Actor) (x y : Item) : Ordering :=
  let a_val := (a.get_best_goal x).bind (fun g => alookup a.goal_hierarchy g)
  let b_val := (a.get_best_goal y).bind (fun g => alookup a.goal_hierarchy g)
  if a_val.isNone ∧ b_val.isSome then .lt
  else if a_val.isSome ∧ b_val.isNone then .gt
  else if a_val.isNone ∧ b_val.isNone then .eq
  else
    match a_val, b_val with
    | some av, some bv => usizeCmp bv av
    | _, _ => .eq

/-- The loop of Rust `slice::binary_search_by`, with the `Ok`/`Err` result
already collapsed by `unwrap_or_else(|e| e)` as in `add_item`. `fuel` drives
structural recursion; `right - left` shrinks every iteration, so the initial
fuel `l.length + 1` always suffices. -/
def binarySearchGo (f : Item → Ordering) (l : List Item) :
    Nat → Nat → Nat → Nat
  | 0, left, _ => left
  | fuel + 1, left, right =>
      if left < right then
        let mid := left + (right - left) / 2
        match f (l.getD mid default) with
        | .lt => binarySearchGo f l fuel (mid + 1) right
        | .gt => binarySearchGo f l fuel left mid
        | .eq => mid
      else left

/-- Insertion location computed by `binary_search_by(...).unwrap_or_else(|e| e)`. -/
def binarySearchLoc (f : Item → Ordering) (l : List Item) : Nat :=
  binarySearchGo f l (l.length + 1) 0 l.length

/-- Vec::insert at an index ≤ len. -/
def listInsert {α : Type} (l : List α) (i : Nat) (x : α) : List α :=
  l.take i ++ x :: l.drop i

/-- Vec::remove; `none` models the panic on an out-of-bounds index. -/
def listRemove? {α : Type} (l : List α) (i : Nat) : Option (List α) :=
  if i < l.length then some (l.take i ++ l.drop (i + 1)) else none

/-- Actor::add_item: sorted insertion into the inventory at the position
found by binary search with `compare_item_values(*probe, item)`. -/
def Actor.add_item (a : Actor) (item : Item) : Actor :=
  let loc := binarySearchLoc (fun probe => a.compare_item_values probe item)
      a.inventory
  { a with inventory := listInsert a.inventory loc item }

/-- Actor::has_item_of: enumerated inventory entries whose item is in the
given list. -/
def Actor.has_item_of (a : Actor) (items : List Item) : List (Nat × Item) :=
  a.inventory.enum.filter (fun p => p.2 ∈ items)

/-- Actor::add_goal: clone the hierarchy into the wrapper's comparator, push
the wrapper onto the heap of every item in `satisfactions[goal]`
(`entry(*item).or_insert(BinaryHeap::new()).push(...)`), and onto
`current_goals`. -/
def Actor.add_goal (a : Actor) (goal : Goal) : Actor :=
  let w : GoalWrapper := { gh := a.goal_hierarchy, goal := goal }
  let pl :=
    match alookup a.satisfactions goal with
    | some items =>
        items.foldl (fun pl item =>
          match alookup pl item with
          | some h => ainsert pl item (heap_push h w)
          | none => ainsert pl item (heap_push [] w)) a.preference_list
    | none => a.preference_list
  { a with preference_list := pl, current_goals := heap_push a.current_goals w }

/-- Actor::add_new_goal: `add_goal` first, then hierarchy and registry
insertion (in that order — the wrapper's snapshot does not yet contain the
goal being added). -/
def Actor.add_new_goal (a : Actor) (gd : GoalData) (location : Nat) : Actor :=
  let a := a.add_goal gd.get_goal
  { a with
    goal_hierarchy := ainsert a.goal_hierarchy gd.get_goal location,
    goal_registry := ainsert a.goal_registry gd.get_goal gd }

/-- Actor::new. -/
def Actor.new (name : Nat) (hierarchy : List GoalData)
    (satisfactions : List (Goal × List Item)) : Actor :=
  let init : Actor :=
    { name := name, goal_registry := [], current_goals := [],
      preference_list := [], satisfactions := satisfactions,
      goal_hierarchy := [], inventory := [],
      state := .SearchingForGoal }
  hierarchy.enum.foldl (fun a p => a.add_new_goal p.2 p.1) init

/-- Rebuild of one heap in `remove_goal`: iterate the underlying vector in
order and push every wrapper whose goal differs. -/
def rebuildWithout (goal : Goal) (h : List GoalWrapper) : List GoalWrapper :=
  h.foldl (fun acc og => if og.goal ≠ goal then heap_push acc og else acc) []

/-- Actor::remove_goal: filtered rebuild of every affected preference-list
heap and of `current_goals`, then registry and hierarchy removal. -/
def Actor.remove_goal (a : Actor) (actual_goal : Goal) : Actor :=
  let pl :=
    match alookup a.satisfactions actual_goal with
    | some items =>
        items.foldl (fun pl item =>
          match alookup pl item with
          | some h => ainsert pl item (rebuildWithout actual_goal h)
          | none => pl) a.preference_list
    | none => a.preference_list
  { a with
    preference_list := pl,
    current_goals := rebuildWithout actual_goal a.current_goals,
    goal_registry := aremove a.goal_registry actual_goal,
    goal_hierarchy := aremove a.goal_hierarchy actual_goal }

/-- Actor::use_item_for_goal. `none` models the panic of
`self.goal_registry.get_mut(&goal).unwrap()`; an item absent from the
inventory is a reported no-op. -/
def Actor.use_item_for_goal (a : Actor) (item : Item) (goal : Goal) :
    Option Actor :=
  match a.inventory.findIdx? (fun r => r = item) with
  | some idx =>
      let inv := a.inventory.take idx ++ a.inventory.drop (idx + 1)
      match alookup a.goal_registry goal with
      | none => none
      | some gd =>
          let upd : GoalData × Bool :=
            match gd with
            | .Satisfaction g ur u id =>
                (.Satisfaction g ur (u + 1) id, u + 1 ≥ ur)
            | .RegularSatisfaction g tr t ur u id =>
                (.RegularSatisfaction g tr t ur (u + 1) id, u + 1 ≥ ur)
          let a := { a with inventory := inv,
                            goal_registry := ainsert a.goal_registry goal upd.1 }
          some (if upd.2 then a.remove_goal goal else a)
  | none => some a

/-- Actor::find_item_for_goal. `none` models the panics of
`satisfactions.get(&goal).unwrap()` and
`preference_list.get(&item).unwrap().peek().unwrap()`. The loop pushes every
satisfying item and breaks early when an item's best goal is the goal. -/
def findItemGo (a : Actor) (goal : Goal) (opts : List Item) :
    List Item → List Item → Option (List Item)
  | [], acc => some acc
  | item :: rest, acc =>
      if item ∈ opts then
        match alookup a.preference_list item with
        | none => none
        | some h =>
            match heap_peek h with
            | none => none
            | some w =>
                if w.goal = goal then some (acc ++ [item])
                else findItemGo a goal opts rest (acc ++ [item])
      else findItemGo a goal opts rest acc

/-- Actor::find_item_for_goal (entry point). -/
def Actor.find_item_for_goal (a : Actor) (goal : Goal) : Option (List Item) :=
  match alookup a.satisfactions goal with
  | none => none
  | some opts => findItemGo a goal opts a.inventory []

/-- Loop body of Actor::find_next_actor_for_trade, over the already
skipped-and-enumerated candidate list. The outer `Option` models the panic of
`satisfactions.get(&goal).unwrap()`; the inner one is the search result.
The index `i` restarts at 0 after the skip, exactly as
`.skip((idx + 1) as usize).enumerate()` does in the source. -/
def findNextGo (a : Actor) (goal : Goal) :
    List (Nat × Option Actor) → Option (Option Nat)
  | [] => some none
  | (i, cell) :: rest =>
      if i = a.name then findNextGo a goal rest
      else
        match cell with
        | none => findNextGo a goal rest
        | some actor =>
            match actor.state with
            | .BidRecipiant _ _ _ | .Bidding _ _ _ => findNextGo a goal rest
            | _ =>
                match alookup a.satisfactions goal with
                | none => none
                | some sats =>
                    if (actor.has_item_of sats).length > 0 then some (some i)
                    else findNextGo a goal rest

/-- Actor::find_next_actor_for_trade. -/
def Actor.find_next_actor_for_trade (a : Actor) (goal : Goal)
    (other_actors : List (Option Actor)) (idx : Int) : Option (Option Nat) :=
  findNextGo a goal ((other_actors.drop (asUsize (idx + 1))).enum)

/-- Timer phase of Actor::tick: increment every recurring record's timer,
reset those that reach `time_required` and re-add their goals. The registry
is traversed in association-list order (a determinization of the source's
`HashMap` iteration order). -/
def tickPhase1 (a : Actor) : Actor :=
  let step := a.goal_registry.map (fun p =>
    match p.2 with
    | GoalData.RegularSatisfaction g tr t ur u id =>
        if t + 1 ≥ tr then ((p.1, GoalData.RegularSatisfaction g tr 0 ur u id), some p.1)
        else ((p.1, GoalData.RegularSatisfaction g tr (t + 1) ur u id), none)
    | gd => ((p.1, gd), none))
  let a := { a with goal_registry := step.map Prod.fst }
  (step.filterMap Prod.snd).foldl Actor.add_goal a

/-- Goal-selection and action phase of Actor::tick (everything after the
recurrence-timer loop): peek the top current goal and branch on the
bargaining state. Returns the updated actor and actor list, or `none` on a
panic (`unwrap`, indexing, `borrow_mut` on the ticking actor's own slot, or
`unreachable!`). -/
def tickAct (a : Actor) (other_actors : List (Option Actor)) :
    Option (Actor × List (Option Actor)) :=
  match (heap_peek a.current_goals).map (fun x => x.goal) with
  | none => some (a, other_actors)
  | some goal =>
      match a.state with
      | .SearchingForGoal => do
          let possibilities ← a.find_item_for_goal goal
          if possibilities.length ≥ 1 then do
            let last ← possibilities.getLast?
            let a ← a.use_item_for_goal last goal
            some ({ a with state := .SearchingForGoal }, other_actors)
          else if a.inventory.length > 0 then
            some ({ a with state := .WillingToTrade (-1) }, other_actors)
          else
            some ({ a with state := .SearchingForGoal }, other_actors)
      | .WillingToTrade idx => do
          let res ← a.find_next_actor_for_trade goal other_actors idx
          match res with
          | some first_idx => do
              let cell ← other_actors[first_idx]?
              let oa ← cell
              let oa := { oa with state := .BidRecipiant a.name none none }
              some ({ a with state := .FoundTradePartner first_idx },
                    other_actors.set first_idx (some oa))
          | none => some ({ a with state := .SearchingForGoal }, other_actors)
      | .FoundTradePartner idx => do
          let cell ← other_actors[idx]?
          let oa ← cell
          let sats ← alookup a.satisfactions goal
          let actors_items := oa.has_item_of sats
          let item1 ← a.inventory.getLast?
          let item2 ← actors_items.head?
          if a.compare_item_values item1 item2.2 ≠ .lt then
            some ({ a with state := .WillingToTrade (Int.ofNat idx) },
                  other_actors.set idx (some { oa with state := .SearchingForGoal }))
          else
            match oa.state with
            | .BidRecipiant j _ _ =>
                some ({ a with
                          state := .Bidding idx (Int.ofNat a.inventory.length)
                              (Int.ofNat item2.1 - 1) },
                      other_actors.set idx
                        (some { oa with
                                  state := .BidRecipiant j (some item1) (some item2) }))
            | _ => none
      | .Bidding idx prev_item1 prev_item2 => do
          let cell ← other_actors[idx]?
          let oa ← cell
          let sats ← alookup a.satisfactions goal
          let actors_items := oa.has_item_of sats
          let lastAi ← actors_items.getLast?
          if Int.ofNat lastAi.1 ≤ prev_item2 ∨ prev_item1 ≤ 0 then
            some ({ a with state := .WillingToTrade (Int.ofNat idx) },
                  other_actors.set idx (some { oa with state := .SearchingForGoal }))
          else do
            let item1 ← a.inventory[asUsize (prev_item1 - 1)]?
            let pos ← actors_items.findIdx? (fun ai => Int.ofNat ai.1 = prev_item2 + 1)
            let item2 ← actors_items[pos]?
            let other := oa.compare_item_values item1 item2.2 ≠ .lt
            let me := a.compare_item_values item1 item2.2 ≠ .gt
            if other ∧ me then do
              let a := a.add_item item2.2
              let inv ← listRemove? a.inventory (asUsize (prev_item1 - 1))
              let a := { a with inventory := inv }
              let oa := oa.add_item item1
              let oinv ← listRemove? oa.inventory item2.1
              let oa := { oa with inventory := oinv }
              some ({ a with state := .SearchingForGoal },
                    other_actors.set idx (some { oa with state := .SearchingForGoal }))
            else
              match oa.state with
              | .BidRecipiant j _ _ =>
                  some ({ a with state := .Bidding idx (prev_item1 - 1) (Int.ofNat item2.1) },
                        other_actors.set idx
                          (some { oa with
                                    state := .BidRecipiant j (some item1) (some item2) }))
              | _ => none
      | .BidRecipiant _ _ _ => some (a, other_actors)

/-- Actor::tick: the recurrence-timer phase followed by the action phase. -/
def Actor.tick (a : Actor) (other_actors : List (Option Actor)) :
    Option (Actor × List (Option Actor)) :=
  tickAct (tickPhase1 a) other_actors

/-- Convenience: tick an actor with an empty partner list, keeping only the
actor (used for single-actor scenarios). -/
def tickSelf (a : Actor) : Option Actor :=
  (a.tick []).map (fun r => r.1)

/-! ## Specification-side definitions

These definitions follow the wording of the specification claims (not the
source); they exist only to be compared against the source-derived
definitions above. -/

/-- Best goal as claim C1 states it: the minimum-rank goal of the goal
hierarchy among the currently active (ranked) goals whose satisfaction-map
entry contains the item; absence if there is none. -/
def claimBestGoal (a : Actor) (item : Item) : Option Goal :=
  (a.goal_hierarchy.foldl (fun best p =>
    if item ∈ (alookup a.satisfactions p.1).getD [] then
      match best with
      | none => some p
      | some q => if p.2 < q.2 then some p else some q
    else best) none).map Prod.fst

/-- Partner search as claim C7 states it: scan the candidates in iteration
order starting after the last-tried index, skip the searcher itself (the
borrowed slot) and anyone already Bidding or BidRecipiant, and return the
first remaining candidate holding at least one item that satisfies the
searcher's goal. -/
def find_next_spec (a : Actor) (goal : Goal)
    (other_actors : List (Option Actor)) (idx : Int) : Option Nat :=
  (other_actors.enum.drop (asUsize (idx + 1))).findSome? (fun p =>
    match p.2 with
    | none => none
    | some actor =>
        match actor.state with
        | .BidRecipiant _ _ _ | .Bidding _ _ _ => none
        | _ =>
            if (actor.has_item_of ((alookup a.satisfactions goal).getD [])).length > 0
            then some p.1 else none)

/-- Item comparison as claim C8 states it: absence whenever either item has
no current best goal, otherwise the ordering of the best goals by hierarchy
rank (an item whose best goal is ranked outranks one whose best goal is
unranked; two items with unranked best goals are equal). -/
def compare_item_values_claim (a : Actor) (x y : Item) : Option Ordering :=
  match a.get_best_goal x, a.get_best_goal y with
  | some gx, some gy =>
      match alookup a.goal_hierarchy gx, alookup a.goal_hierarchy gy with
      | some rx, some ry => some (usizeCmp ry rx)
      | some _, none => some .gt
      | none, some _ => some .lt
      | none, none => some .eq
  | _, _ => none

/-- Item comparison as the amended claim C8 states it: always an ordering —
an item with a valued (ranked) best goal outranks one without, two items
without compare equal, and otherwise the best goals' ranks are compared with
the lower rank more valuable. -/
def compare_item_values_amended (a : Actor) (x y : Item) : Ordering :=
  match (a.get_best_goal x).bind (fun g => alookup a.goal_hierarchy g),
        (a.get_best_goal y).bind (fun g => alookup a.goal_hierarchy g) with
  | none, none => .eq
  | none, some _ => .lt
  | some _, none => .gt
  | some rx, some ry => usizeCmp ry rx

/-- The instrumental value of an item: the hierarchy rank of its current best
goal, if any (the quantity the source's compare_item_values compares). -/
def itemVal (a : Actor) (i : Item) : Option Nat :=
  (a.get_best_goal i).bind (fun g => alookup a.goal_hierarchy g)

/-- Comparison of two optional ranks exactly as compare_item_values branches
on them: no rank is least, and ranks compare reversed (lower rank = more
valuable = greater). -/
def cmpVal : Option Nat → Option Nat → Ordering
  | none, none => .eq
  | none, some _ => .lt
  | some _, none => .gt
  | some x, some y => usizeCmp y x

/-! ## Concrete scenario instances used by the claim theorems -/

/-- C1 scenario: a fresh actor with goals Eat (rank 0) and Leisure (rank 1),
both satisfied by FoodUnit, after one further add_goal call on the
already-active goal Leisure (the call the recurring-goal timer path of tick
performs on every expiry). -/
def c1Actor : Actor :=
  (Actor.new 0 [.Satisfaction .Eat 5 0 0, .Satisfaction .Leisure 5 0 1]
      [(.Eat, [.FoodUnit]), (.Leisure, [.FoodUnit])]).add_goal .Leisure

/-- C2 scenario: an actor whose only goal is a recurring Eat record with
time_required = 3. -/
def c2Actor : Actor :=
  Actor.new 0 [.RegularSatisfaction .Eat 3 0 1 0 0] [(.Eat, [.FoodUnit])]

/-- C3 scenario, initiating side: goals Eat (0, satisfied by HouseUnit),
Shelter (1, by HouseUnit/FoodUnit/LeisureUnit2), Leisure (2, by
LeisureUnit1); one duplicate add_goal of the active goal Shelter (the call
tick performs on every recurring-goal expiry), which sifts a live-snapshot
wrapper over the stale ones; inventory built by add_item; in the Bidding
state that FoundTradePartner produces for partner index 1 (prev_item1 =
inventory length 3, prev_item2 = first match index 0 minus 1). -/
def c3ActorA : Actor :=
  { ((((Actor.new 0
        [.Satisfaction .Eat 5 0 0, .Satisfaction .Shelter 5 0 1,
         .Satisfaction .Leisure 5 0 2]
        [(.Eat, [.HouseUnit]),
         (.Shelter, [.HouseUnit, .FoodUnit, .LeisureUnit2]),
         (.Leisure, [.LeisureUnit1])]).add_goal .Shelter).add_item
        .LeisureUnit1).add_item .LeisureUnit2).add_item .FoodUnit
    with state := .Bidding 1 3 (-1) }

/-- C3 scenario, partner side: values LeisureUnit2 (its only ranked goal's
satisfier) and holds the HouseUnit the initiator wants, waiting as the bid
recipient. -/
def c3ActorB : Actor :=
  { (Actor.new 1 [.Satisfaction .Leisure 5 0 0]
      [(.Leisure, [.LeisureUnit2])]).add_item .HouseUnit
    with state := .BidRecipiant 0 none none }

/-- C4 scenario, initiating side (Scenario B of the spec): wants Shelter,
holds FoodUnit, in the Bidding state FoundTradePartner produces. -/
def c4ActorA : Actor :=
  { (Actor.new 0 [.Satisfaction .Shelter 1 0 0]
      [(.Shelter, [.HouseUnit])]).add_item .FoodUnit
    with state := .Bidding 1 1 (-1) }

/-- C4 scenario, partner side: wants Eat (satisfied by FoodUnit), holds
HouseUnit, waiting as bid recipient with the pending offer recorded. -/
def c4ActorB : Actor :=
  { (Actor.new 1 [.Satisfaction .Eat 1 0 0]
      [(.Eat, [.FoodUnit])]).add_item .HouseUnit
    with state := .BidRecipiant 0 (some .FoodUnit) (some (0, .HouseUnit)) }

/-- C6 scenario, searcher: wants Eat (satisfied only by HouseUnit, which it
lacks), holds FoodUnit, willing to trade. -/
def c6Searcher : Actor :=
  { (Actor.new 0 [.Satisfaction .Eat 1 0 0]
      [(.Eat, [.HouseUnit])]).add_item .FoodUnit
    with state := .WillingToTrade (-1) }

/-- C6 scenario, the only other actor, already engaged in bidding. -/
def c6Busy : Actor :=
  { Actor.new 1 [.Satisfaction .Eat 1 0 0] [(.Eat, [.FoodUnit])]
    with state := .Bidding 0 1 1 }

/-- C7 helper: an actor named n with the given inventory and state, wanting
Eat which only HouseUnit satisfies. -/
def c7Mk (n : Nat) (inv : List Item) (st : ActorState) : Actor :=
  { inv.foldl Actor.add_item
      (Actor.new n [.Satisfaction .Eat 1 0 0] [(.Eat, [.HouseUnit])])
    with state := st }

/-- C7 scenario: searcher Actor#1 retrying after last-tried index 0. -/
def c7Searcher : Actor := c7Mk 1 [.FoodUnit] (.WillingToTrade 0)

/-- C7 scenario: the actor vector — Actor#0 (no match), the searcher's own
borrowed slot, Actor#2 (idle, holding the wanted HouseUnit), Actor#3 (no
match). -/
def c7Cells : List (Option Actor) :=
  [some (c7Mk 0 [] .SearchingForGoal), none,
   some (c7Mk 2 [.HouseUnit] .SearchingForGoal),
   some (c7Mk 3 [] .SearchingForGoal)]

/-- C8 scenario: a fresh actor valuing only FoodUnit (via Eat); HouseUnit has
no best goal. -/
def c8Actor : Actor :=
  Actor.new 0 [.Satisfaction .Eat 1 0 0] [(.Eat, [.FoodUnit])]

/-- C9 counterexample scenario: FoodUnit and HouseUnit added while Eat and
Shelter were ranked, then Eat removed (devaluing FoodUnit), then a valueless
LeisureUnit1 added — the binary-search insertion lands between items that the
current ordering has in inverted positions. -/
def c9Actor : Actor :=
  ((((Actor.new 0 [.Satisfaction .Eat 1 0 0, .Satisfaction .Shelter 1 0 1]
      [(.Eat, [.FoodUnit]), (.Shelter, [.HouseUnit])]).add_item
      .FoodUnit).add_item .HouseUnit).remove_goal .Eat).add_item .LeisureUnit1

/-- C9 witness scenario: a small sorted actor. -/
def c9Sorted : Actor :=
  (Actor.new 0 [.Satisfaction .Eat 1 0 0]
      [(.Eat, [.FoodUnit])]).add_item .HouseUnit

/-- C10 witness scenario: an item in inventory but an empty goal registry. -/
def c10Actor : Actor :=
  { Actor.new 0 [] [] with inventory := [.FoodUnit] }

/-! ## Helper lemmas -/

theorem cmpVal_swap (a b : Option Nat) : cmpVal b a = (cmpVal a b).swap := by
  cases a <;> cases b <;>
    simp only [cmpVal, usizeCmp, Ordering.swap] <;>
    (try split_ifs) <;> (try simp_all) <;> (try omega) <;> rfl

theorem cmpVal_le_lt_trans {a b c : Option Nat} (h1 : cmpVal a b ≠ .gt)
    (h2 : cmpVal b c = .lt) : cmpVal a c = .lt := by
  cases a <;> cases b <;> cases c <;>
    simp only [cmpVal, usizeCmp] at h1 h2 ⊢ <;>
    (try split_ifs at h1 h2 ⊢) <;> (try simp_all) <;> (try omega) <;> rfl

theorem cmpVal_gt_of_gt_ge {a b c : Option Nat} (h1 : cmpVal b c = .gt)
    (h2 : cmpVal b a ≠ .gt) : cmpVal a c = .gt := by
  cases a <;> cases b <;> cases c <;>
    simp only [cmpVal, usizeCmp] at h1 h2 ⊢ <;>
    (try split_ifs at h1 h2 ⊢) <;> (try simp_all) <;> (try omega) <;> rfl

theorem cmpVal_not_gt_trans {a b c : Option Nat} (h1 : cmpVal a b ≠ .gt)
    (h2 : cmpVal b c ≠ .gt) : cmpVal a c ≠ .gt := by
  cases a <;> cases b <;> cases c <;>
    simp only [cmpVal, usizeCmp] at h1 h2 ⊢ <;>
    (try split_ifs at h1 h2 ⊢) <;> (try simp_all) <;> (try omega) <;> rfl

theorem cmpVal_not_lt_of_eq_le {a b c : Option Nat} (h1 : cmpVal b c = .eq)
    (h2 : cmpVal b a ≠ .gt) : cmpVal a c ≠ .lt := by
  cases a <;> cases b <;> cases c <;>
    simp only [cmpVal, usizeCmp] at h1 h2 ⊢ <;>
    (try split_ifs at h1 h2 ⊢) <;> (try simp_all) <;> (try omega) <;> rfl

theorem cmpVal_not_gt_of_eq_le {a b c : Option Nat} (h1 : cmpVal a b ≠ .gt)
    (h2 : cmpVal b c = .eq) : cmpVal a c ≠ .gt := by
  cases a <;> cases b <;> cases c <;>
    simp only [cmpVal, usizeCmp] at h1 h2 ⊢ <;>
    (try split_ifs at h1 h2 ⊢) <;> (try simp_all) <;> (try omega) <;> rfl

theorem cmpVal_not_gt_of_not_lt {a b : Option Nat} (h : cmpVal a b ≠ .lt) :
    cmpVal b a ≠ .gt := by
  cases a <;> cases b <;>
    simp only [cmpVal, usizeCmp] at h ⊢ <;>
    (try split_ifs at h ⊢) <;> (try simp_all) <;> (try omega) <;> decide

theorem compare_item_values_eq_cmpVal (a : Actor) (x y : Item) :
    a.compare_item_values x y = cmpVal (itemVal a x) (itemVal a y) := by
  unfold Actor.compare_item_values itemVal
  cases (a.get_best_goal x).bind (fun g => alookup a.goal_hierarchy g) <;>
    cases (a.get_best_goal y).bind (fun g => alookup a.goal_hierarchy g) <;>
    simp [cmpVal]

theorem binarySearchGo_le (f : Item → Ordering) (l : List Item) :
    ∀ fuel left right, left ≤ right → right ≤ l.length →
      binarySearchGo f l fuel left right ≤ l.length := by
  intro fuel
  induction fuel with
  | zero => intro left right h1 h2; simpa [binarySearchGo] using le_trans h1 h2
  | succ fuel ih =>
      intro left right h1 h2
      simp only [binarySearchGo]
      split_ifs with hlr
      · have hmid : left + (right - left) / 2 < right := by omega
        cases hf : f (l.getD (left + (right - left) / 2) default) with
        | lt => exact ih _ _ (by omega) h2
        | gt => exact ih _ _ (by omega) (by omega)
        | eq => exact Nat.le_trans (Nat.le_of_lt hmid) h2
      · omega

theorem binarySearchLoc_le (f : Item → Ordering) (l : List Item) :
    binarySearchLoc f l ≤ l.length :=
  binarySearchGo_le f l _ 0 l.length (Nat.zero_le _) le_rfl

theorem listInsert_length {α : Type} (l : List α) (i : Nat) (x : α)
    (h : i ≤ l.length) : (listInsert l i x).length = l.length + 1 := by
  simp [listInsert]
  omega

theorem add_item_inventory_length (a : Actor) (item : Item) :
    (a.add_item item).inventory.length = a.inventory.length + 1 := by
  simp [Actor.add_item]
  exact listInsert_length _ _ _ (binarySearchLoc_le _ _)

theorem binarySearchGo_spec (v : Item → Option Nat) (t : Option Nat)
    (l : List Item)
    (hs : ∀ i j, i < j → j < l.length →
      cmpVal (v (l.getD i default)) (v (l.getD j default)) ≠ .gt) :
    ∀ fuel left right, right - left ≤ fuel → left ≤ right → right ≤ l.length →
      (∀ j, j < left → cmpVal (v (l.getD j default)) t = .lt) →
      (∀ j, right ≤ j → j < l.length → cmpVal (v (l.getD j default)) t = .gt) →
      (∀ j, j < binarySearchGo (fun probe => cmpVal (v probe) t) l fuel left right →
          cmpVal (v (l.getD j default)) t ≠ .gt) ∧
      (∀ j, binarySearchGo (fun probe => cmpVal (v probe) t) l fuel left right ≤ j →
          j < l.length → cmpVal (v (l.getD j default)) t ≠ .lt) := by
  intro fuel
  induction fuel with
  | zero =>
      intro left right hf hlr hrl hL hR
      simp only [binarySearchGo]
      refine ⟨fun j hj => ?_, fun j hj1 hj2 => ?_⟩
      · rw [hL j hj]; decide
      · rw [hR j (by omega) hj2]; decide
  | succ fuel ih =>
      intro left right hf hlr hrl hL hR
      simp only [binarySearchGo]
      split_ifs with h
      · have hmlt : left + (right - left) / 2 < right := by omega
        have hmge : left ≤ left + (right - left) / 2 := by omega
        have hmlen : left + (right - left) / 2 < l.length := lt_of_lt_of_le hmlt hrl
        cases hfm : cmpVal (v (l.getD (left + (right - left) / 2) default)) t with
        | lt =>
            refine ih (left + (right - left) / 2 + 1) right (by omega) (by omega) hrl
              (fun j hj => ?_) hR
            rcases Nat.lt_or_ge j left with hc | hc
            · exact hL j hc
            · rcases Nat.lt_or_ge j (left + (right - left) / 2) with hc2 | hc2
              · exact cmpVal_le_lt_trans (hs j _ hc2 hmlen) hfm
              · have : j = left + (right - left) / 2 := by omega
                rw [this]; exact hfm
        | gt =>
            refine ih left (left + (right - left) / 2) (by omega) hmge
              (le_of_lt hmlen) hL (fun j hj1 hj2 => ?_)
            rcases eq_or_lt_of_le hj1 with heq | hc
            · rw [← heq]; exact hfm
            · exact cmpVal_gt_of_gt_ge hfm (hs _ j hc hj2)
        | eq =>
            refine ⟨fun j hj => ?_, fun j hj1 hj2 => ?_⟩
            · rcases Nat.lt_or_ge j left with hc | hc
              · rw [hL j hc]; decide
              · exact cmpVal_not_gt_of_eq_le (hs j _ hj hmlen) hfm
            · rcases eq_or_lt_of_le hj1 with heq | hc
              · rw [← heq]; rw [hfm]; decide
              · exact cmpVal_not_lt_of_eq_le hfm (hs _ j hc hj2)
      · refine ⟨fun j hj => ?_, fun j hj1 hj2 => ?_⟩
        · rw [hL j hj]; decide
        · rw [hR j (by omega) hj2]; decide

theorem binarySearchLoc_spec (v : Item → Option Nat) (t : Option Nat)
    (l : List Item)
    (hs : ∀ i j, i < j → j < l.length →
      cmpVal (v (l.getD i default)) (v (l.getD j default)) ≠ .gt) :
    (∀ j, j < binarySearchLoc (fun probe => cmpVal (v probe) t) l →
        cmpVal (v (l.getD j default)) t ≠ .gt) ∧
    (∀ j, binarySearchLoc (fun probe => cmpVal (v probe) t) l ≤ j →
        j < l.length → cmpVal (v (l.getD j default)) t ≠ .lt) :=
  binarySearchGo_spec v t l hs (l.length + 1) 0 l.length (by omega)
    (Nat.zero_le _) le_rfl (fun j hj => absurd hj (Nat.not_lt_zero j))
    (fun j hj1 hj2 => absurd (lt_of_le_of_lt hj1 hj2) (lt_irrefl _))

theorem pairwise_iff_getD {R : Item → Item → Prop} (l : List Item) :
    l.Pairwise R ↔
      ∀ i j, i < j → j < l.length → R (l.getD i default) (l.getD j default) := by
  rw [List.pairwise_iff_getElem]
  constructor
  · intro h i j hij hj
    have hi : i < l.length := lt_trans hij hj
    have := h i j hi hj hij
    simpa [List.getD_eq_getElem?_getD, List.getElem?_eq_getElem, hi, hj] using this
  · intro h i j hi hj hij
    have := h i j hij hj
    simpa [List.getD_eq_getElem?_getD, List.getElem?_eq_getElem, hi, hj] using this

theorem insert_pairwise (v : Item → Option Nat) (l : List Item) (x : Item)
    (hs : l.Pairwise (fun p q => cmpVal (v p) (v q) ≠ .gt)) :
    (listInsert l (binarySearchLoc (fun probe => cmpVal (v probe) (v x)) l)
        x).Pairwise (fun p q => cmpVal (v p) (v q) ≠ .gt) := by
  have hsi := (pairwise_iff_getD l).mp hs
  obtain ⟨hA, hB⟩ := binarySearchLoc_spec v (v x) l hsi
  have hloc : binarySearchLoc (fun probe => cmpVal (v probe) (v x)) l ≤ l.length :=
    binarySearchLoc_le _ _
  have htake : ∀ p ∈ l.take (binarySearchLoc (fun probe => cmpVal (v probe) (v x)) l),
      cmpVal (v p) (v x) ≠ .gt := by
    intro p hp
    obtain ⟨i, hi, hpi⟩ := List.mem_iff_getElem.mp hp
    have hi' : i < binarySearchLoc (fun probe => cmpVal (v probe) (v x)) l := by
      simp at hi; omega
    have hilen : i < l.length := lt_of_lt_of_le hi' hloc
    have : p = l.getD i default := by
      rw [← hpi, List.getElem_take,
        List.getD_eq_getElem?_getD, List.getElem?_eq_getElem hilen]
      rfl
    rw [this]
    exact hA i hi'
  have hdrop : ∀ q ∈ l.drop (binarySearchLoc (fun probe => cmpVal (v probe) (v x)) l),
      cmpVal (v x) (v q) ≠ .gt := by
    intro q hq
    obtain ⟨i, hi, hqi⟩ := List.mem_iff_getElem.mp hq
    have hilen : binarySearchLoc (fun probe => cmpVal (v probe) (v x)) l + i <
        l.length := by simp at hi; omega
    have : q = l.getD (binarySearchLoc (fun probe => cmpVal (v probe) (v x)) l + i)
        default := by
      rw [← hqi, List.getElem_drop,
        List.getD_eq_getElem?_getD, List.getElem?_eq_getElem hilen]
      rfl
    rw [this]
    exact cmpVal_not_gt_of_not_lt (hB _ (Nat.le_add_right _ _) hilen)
  unfold listInsert
  rw [List.pairwise_append]
  refine ⟨hs.sublist (List.take_sublist _ _), ?_, ?_⟩
  · rw [List.pairwise_cons]
    exact ⟨hdrop, hs.sublist (List.drop_sublist _ _)⟩
  · intro p hp q hq
    rcases List.mem_cons.mp hq with rfl | hq'
    · exact htake p hp
    · have hpair := List.pairwise_append.mp
        (by rw [List.take_append_drop
          (binarySearchLoc (fun probe => cmpVal (v probe) (v x)) l)]; exact hs)
      exact hpair.2.2 p hp q hq'

theorem findIdx?_isSome_of_mem {l : List Item} {x : Item} (h : x ∈ l) :
    (l.findIdx? (fun r => r = x)).isSome := by
  rcases hf : l.findIdx? (fun r => r = x) with _ | i
  · have hcontra := List.findIdx?_eq_none_iff.mp hf x h
    simp at hcontra
  · rfl

theorem findIdx?_none_of_not_mem {l : List Item} {x : Item} (h : x ∉ l) :
    l.findIdx? (fun r => r = x) = none := by
  rw [List.findIdx?_eq_none_iff]
  intro y hy
  simp only [decide_eq_false_iff_not]
  exact fun heq => h (heq ▸ hy)

/-! ## Claim theorems -/

/-- C10: whenever the item is present in the inventory but the goal has no
entry in the goal registry, use_item_for_goal panics on the unwrapped
registry lookup (modelled by none); with the goal registered the call is
total, and with the item absent it is the reported no-op — so totality
requires exactly the registered-goal precondition. -/
theorem c10_use_item_registry_panic (a : Actor) (item : Item) (goal : Goal) :
    (item ∈ a.inventory → alookup a.goal_registry goal = none →
        a.use_item_for_goal item goal = none) ∧
    ((alookup a.goal_registry goal).isSome →
        (a.use_item_for_goal item goal).isSome) ∧
    (item ∉ a.inventory → (a.use_item_for_goal item goal).isSome) := by
  refine ⟨fun hmem hreg => ?_, fun hreg => ?_, fun hmem => ?_⟩
  · have hf := findIdx?_isSome_of_mem hmem
    unfold Actor.use_item_for_goal
    rcases ho : a.inventory.findIdx? (fun r => r = item) with _ | i
    · rw [ho] at hf; exact absurd hf (by decide)
    · rw [hreg]
  · unfold Actor.use_item_for_goal
    rcases ho : a.inventory.findIdx? (fun r => r = item) with _ | i
    · rfl
    · rcases hg : alookup a.goal_registry goal with _ | gd
      · rw [hg] at hreg; simp at hreg
      · cases gd <;> rfl
  · unfold Actor.use_item_for_goal
    rw [findIdx?_none_of_not_mem hmem]
    rfl

/-- C10 witness: a concrete actor holding FoodUnit with an empty goal
registry; using the item for the unregistered goal Eat panics. -/
theorem c10_use_item_registry_panic_witness :
    c10Actor.use_item_for_goal .FoodUnit .Eat = none :=
  (c10_use_item_registry_panic c10Actor .FoodUnit .Eat).1 (by decide) (by decide)

theorem compare_item_values_amended_eq_cmpVal (a : Actor) (x y : Item) :
    compare_item_values_amended a x y = cmpVal (itemVal a x) (itemVal a y) := by
  unfold compare_item_values_amended cmpVal itemVal
  cases (a.get_best_goal x).bind (fun g => alookup a.goal_hierarchy g) <;>
    cases (a.get_best_goal y).bind (fun g => alookup a.goal_hierarchy g) <;> rfl

/-- C8 (counterexample): the claim demands absence whenever either item has no
current best goal, but on a fresh actor where HouseUnit has no best goal the
source's compare_item_values still returns an ordering (Less), never
absence. -/
theorem c8_absence_counterexample :
    c8Actor.get_best_goal .HouseUnit = none ∧
    compare_item_values_claim c8Actor .HouseUnit .FoodUnit = none ∧
    c8Actor.compare_item_values .HouseUnit .FoodUnit = .lt := by decide

/-- C8 (amended): compare_item_values always returns an ordering: an item
whose best goal is ranked outranks one whose best goal is missing or
unranked, two items without ranked best goals compare equal, and otherwise
the best goals' hierarchy ranks are compared with the lower rank more
valuable; the call reads only the preference list and hierarchy (it is a
pure query in this embedding). -/
theorem c8_compare_characterized (a : Actor) (x y : Item) :
    a.compare_item_values x y = compare_item_values_amended a x y := by
  rw [compare_item_values_eq_cmpVal, compare_item_values_amended_eq_cmpVal]

/-- C5 (counterexample): with Eat ranked 0 and Shelter ranked 1 in the
comparator's snapshot, the claim says Eat (lower rank) wins — compares
Greater in the max-heap ordering — but the source comparator returns Less;
and with Shelter unranked the claim says the ranked Eat wins, but the
comparator returns Equal. -/
theorem c5_comparator_counterexample :
    gw_cmp ⟨[(.Eat, 0), (.Shelter, 1)], .Eat⟩
        ⟨[(.Eat, 0), (.Shelter, 1)], .Shelter⟩ ≠ .gt ∧
    gw_cmp ⟨[(.Eat, 0), (.Shelter, 1)], .Eat⟩
        ⟨[(.Eat, 0), (.Shelter, 1)], .Shelter⟩ = .lt ∧
    gw_cmp ⟨[(.Eat, 0)], .Eat⟩ ⟨[(.Eat, 0)], .Shelter⟩ ≠ .gt ∧
    gw_cmp ⟨[(.Eat, 0)], .Eat⟩ ⟨[(.Eat, 0)], .Shelter⟩ = .eq := by decide

/-- C5 (amended): the goal comparison used by the priority structures returns
the natural order of the two ranks when both goals are ranked in the
comparator's hierarchy snapshot (so the lower-ranked, more-valued goal
compares as Less and the higher-ranked goal wins the max-heap ordering), and
returns Equal whenever either goal is unranked there. -/
theorem c5_comparator_characterized (gh : List (Goal × Nat)) (x y : Goal) :
    (∀ rx ry, alookup gh x = some rx → alookup gh y = some ry →
        gw_cmp ⟨gh, x⟩ ⟨gh, y⟩ = usizeCmp rx ry) ∧
    (alookup gh x = none ∨ alookup gh y = none →
        gw_cmp ⟨gh, x⟩ ⟨gh, y⟩ = .eq) := by
  constructor
  · intro rx ry h1 h2
    unfold gw_cmp
    rw [h1, h2]
  · intro hor
    unfold gw_cmp
    rcases hor with h | h
    · rw [h]
    · rw [h]
      cases alookup gh x <;> rfl

/-- C5 witness: the characterization applied to Shelter (rank 1) against Eat
(rank 0). -/
theorem c5_comparator_characterized_witness :
    gw_cmp ⟨[(.Eat, 0), (.Shelter, 1)], .Shelter⟩
      ⟨[(.Eat, 0), (.Shelter, 1)], .Eat⟩ = usizeCmp 1 0 :=
  (c5_comparator_characterized [(.Eat, 0), (.Shelter, 1)] .Shelter .Eat).1 1 0
    (by decide) (by decide)

/-- C1: after the add_goal sequence of c1Actor (construction with Eat ranked 0
and Leisure ranked 1, both satisfied by FoodUnit, then one further add_goal of
the already-active Leisure — the very call tick performs on every
recurring-goal expiry), get_best_goal returns Leisure, not the minimum-rank
active goal Eat demanded by the claim: the heaps are max-heaps whose stored
comparator snapshots order ranks naturally, so the duplicate wrapper with the
live snapshot sifts above the rank-0 goal. -/
theorem c1_best_goal_not_min_rank :
    c1Actor.get_best_goal .FoodUnit = some .Leisure ∧
    claimBestGoal c1Actor .FoodUnit = some .Eat ∧
    alookup c1Actor.goal_hierarchy .Eat = some 0 ∧
    alookup c1Actor.goal_hierarchy .Leisure = some 1 := by decide

/-- C2: once the recurring goal Eat (time_required = 3) is removed on
satisfaction, its GoalRecord is deleted from the registry by remove_goal, so
three subsequent ticks (and any number more) never reintroduce it: the
registry entry stays absent, the goal hierarchy and current-goals structure
stay empty, and FoodUnit has no best goal — contradicting the claimed
reintroduction on the third tick. -/
theorem c2_recurring_goal_never_reintroduced :
    alookup c2Actor.goal_registry .Eat =
      some (.RegularSatisfaction .Eat 3 0 1 0 0) ∧
    ((((tickSelf (c2Actor.remove_goal .Eat)).bind tickSelf).bind tickSelf).map
      (fun a => (alookup a.goal_registry .Eat, a.current_goals,
        a.get_best_goal .FoodUnit))) = some (none, [], none) := by decide

/-- C3: a bidding round that both sides accept does not perform an exact
swap: the initiator offers item1 = LeisureUnit2 (inventory index
prev_item1 - 1 = 2 of [LeisureUnit1, FoodUnit, LeisureUnit2]), but because
add_item first inserts the received HouseUnit at position 1, the subsequent
remove at the stale index 2 deletes FoodUnit — the initiator ends with
[LeisureUnit1, HouseUnit, LeisureUnit2], keeping the offered LeisureUnit2
(now also held by the partner) and losing the never-offered FoodUnit. -/
theorem c3_accepted_bid_swaps_wrong_item :
    c3ActorA.inventory = [.LeisureUnit1, .FoodUnit, .LeisureUnit2] ∧
    (c3ActorA.tick [none, some c3ActorB]).map
      (fun r => (r.1.inventory, r.1.state,
        r.2.map (fun c => c.map (fun b => (b.inventory, b.state))))) =
      some ([.LeisureUnit1, .HouseUnit, .LeisureUnit2], .SearchingForGoal,
        [none, some ([.LeisureUnit2], .SearchingForGoal)]) := by decide

/-- C4 (counterexample): in the Scenario-B bidding round the partner's own
comparison ranks the received FoodUnit strictly more valuable than the
HouseUnit it offers (Greater), so by the claim's partner condition — received
item not more valuable than the offered one — the bid must be rejected; the
source accepts it and completes the swap. -/
theorem c4_partner_condition_counterexample :
    c4ActorB.compare_item_values .FoodUnit .HouseUnit = .gt ∧
    (c4ActorA.tick [none, some c4ActorB]).map
      (fun r => (r.1.state, r.1.inventory,
        r.2.map (fun c => c.map (fun b => (b.state, b.inventory))))) =
      some (.SearchingForGoal, [.HouseUnit],
        [none, some (.SearchingForGoal, [.FoodUnit])]) := by decide

/-- C6 (counterexample): a WillingToTrade actor whose scan finds every
partner already Bidding ends its tick in SearchingForGoal — not still
WillingToTrade as the claim states — with every other actor untouched. -/
theorem c6_exhausted_scan_counterexample :
    c6Searcher.state = .WillingToTrade (-1) ∧
    (c6Searcher.tick [none, some c6Busy]).map (fun r => (r.1.state, r.2)) =
      some (.SearchingForGoal, [none, some c6Busy]) := by decide

/-- C7: with searcher Actor#1 (at position 1) retrying after last-tried index
0, the idle Actor#2 holds the wanted HouseUnit, yet find_next_actor_for_trade
returns no partner: because enumerate is applied after skip, Actor#2 receives
suffix index 1 and the self-skip check `Actor#1 == self.name` wrongly
discards it. The claim-side scan (absolute iteration order after the
last-tried index, skipping self and busy actors) finds Actor#2. -/
theorem c7_partner_search_skips_valid_candidate :
    c7Searcher.find_next_actor_for_trade .Eat c7Cells 0 = some none ∧
    find_next_spec c7Searcher .Eat c7Cells 0 = some 2 := by decide

/-- C9 (counterexample): FoodUnit and HouseUnit were inserted while Eat and
Shelter were ranked; removing Eat devalues FoodUnit, and the next add_item of
a valueless LeisureUnit1 lands mid-list: the resulting inventory
[HouseUnit, LeisureUnit1, FoodUnit] is not sorted by the actor's own current
compare_item_values (HouseUnit compares Greater than LeisureUnit1). -/
theorem c9_inventory_unsorted_counterexample :
    c9Actor.inventory = [.HouseUnit, .LeisureUnit1, .FoodUnit] ∧
    ¬ c9Actor.inventory.Pairwise
        (fun x y => c9Actor.compare_item_values x y ≠ .gt) := by decide

/-- C9 (amended): add_item does preserve sortedness with respect to the
comparison in force at insertion time: if the inventory is sorted by the
actor's current compare_item_values, it is still sorted by that same ordering
(unchanged by add_item) after the insertion. The unrestricted invariant fails
because goal additions and removals between insertions change the ordering
itself. -/
theorem c9_add_item_preserves_sortedness (s : Actor) (item : Item)
    (h : s.inventory.Pairwise (fun x y => s.compare_item_values x y ≠ .gt)) :
    (s.add_item item).inventory.Pairwise
      (fun x y => (s.add_item item).compare_item_values x y ≠ .gt) := by
  have h' : s.inventory.Pairwise
      (fun p q => cmpVal (itemVal s p) (itemVal s q) ≠ .gt) := by
    refine h.imp ?_
    intro p q hpq
    rwa [compare_item_values_eq_cmpVal] at hpq
  have hmain := insert_pairwise (itemVal s) s.inventory item h'
  have hfn : (fun probe => s.compare_item_values probe item) =
      (fun probe => cmpVal (itemVal s probe) (itemVal s item)) := by
    funext probe
    exact compare_item_values_eq_cmpVal s probe item
  have hinv : (s.add_item item).inventory =
      listInsert s.inventory
        (binarySearchLoc
          (fun probe => cmpVal (itemVal s probe) (itemVal s item)) s.inventory)
        item := by
    simp only [Actor.add_item, hfn]
  rw [hinv]
  refine hmain.imp ?_
  intro p q hpq
  have hsame : (s.add_item item).compare_item_values p q =
      s.compare_item_values p q := rfl
  rw [hsame, compare_item_values_eq_cmpVal]
  exact hpq

/-- C9 witness: inserting FoodUnit into the sorted inventory [HouseUnit] of
c9Sorted keeps the inventory sorted by the actor's own comparison. -/
theorem c9_add_item_preserves_sortedness_witness :
    (c9Sorted.add_item .FoodUnit).inventory.Pairwise
      (fun x y => (c9Sorted.add_item .FoodUnit).compare_item_values x y ≠ .gt) :=
  c9_add_item_preserves_sortedness c9Sorted .FoodUnit (by decide)

/-- C6 (amended): when a WillingToTrade actor's partner scan comes back
empty (every candidate skipped — busy, borrowed, or without a matching
item), its tick sets the actor to SearchingForGoal (it abandons the search
for this round rather than staying WillingToTrade) and leaves every other
actor's state unchanged. -/
theorem c6_exhausted_scan_behavior (a : Actor) (others : List (Option Actor))
    (idx : Int) (w : GoalWrapper)
    (hph : tickPhase1 a = a)
    (hgoal : heap_peek a.current_goals = some w)
    (hstate : a.state = .WillingToTrade idx)
    (hfind : a.find_next_actor_for_trade w.goal others idx = some none) :
    a.tick others = some ({ a with state := .SearchingForGoal }, others) := by
  unfold Actor.tick
  rw [hph]
  unfold tickAct
  rw [hgoal]
  simp only [Option.map_some']
  rw [hstate]
  simp [hfind]

/-- C6 witness: the amended behavior at the concrete exhausted-scan
scenario. -/
theorem c6_exhausted_scan_behavior_witness :
    c6Searcher.tick [none, some c6Busy] =
      some ({ c6Searcher with state := .SearchingForGoal },
        [none, some c6Busy]) :=
  c6_exhausted_scan_behavior c6Searcher [none, some c6Busy] (-1) ⟨[], .Eat⟩
    (by decide) (by decide) (by decide) (by decide)

theorem listRemove?_of_lt {α : Type} {l : List α} {i : Nat} (h : i < l.length) :
    listRemove? l i = some (l.take i ++ l.drop (i + 1)) := by
  unfold listRemove?
  rw [if_pos h]

theorem getElem?_lt_length {α : Type} {l : List α} {i : Nat} {x : α}
    (h : l[i]? = some x) : i < l.length := by
  by_contra hge
  rw [List.getElem?_eq_none (by omega)] at h
  cases h

/-- C4 (amended): in a Bidding round with a candidate trade — proposer offers
item1, partner offers item2 — the trade is executed (the proposer's resulting
state is SearchingForGoal) iff the partner's own comparison ranks the item it
receives (item1) not LESS valuable than the item it offers (item2), and the
proposer's own comparison ranks the received item2 not less valuable than the
offered item1 (its comparison of item1 against item2 is not Greater). -/
theorem c4_acceptance_characterized (a oa : Actor)
    (others : List (Option Actor)) (idx : Nat) (p1 p2 : Int) (w : GoalWrapper)
    (sats : List Item) (lastAi : Nat × Item) (item1 : Item) (pos : Nat)
    (item2 : Nat × Item) (j : Nat) (oi : Option Item)
    (op : Option (Nat × Item))
    (hph : tickPhase1 a = a)
    (hgoal : heap_peek a.current_goals = some w)
    (hstate : a.state = .Bidding idx p1 p2)
    (hcell : others[idx]? = some (some oa))
    (hsat : alookup a.satisfactions w.goal = some sats)
    (hlast : (oa.has_item_of sats).getLast? = some lastAi)
    (hcont : ¬(Int.ofNat lastAi.1 ≤ p2 ∨ p1 ≤ 0))
    (hitem1 : a.inventory[asUsize (p1 - 1)]? = some item1)
    (hpos : (oa.has_item_of sats).findIdx?
        (fun ai => Int.ofNat ai.1 = p2 + 1) = some pos)
    (hitem2 : (oa.has_item_of sats)[pos]? = some item2)
    (hoa : oa.state = .BidRecipiant j oi op)
    (hb2 : item2.1 < oa.inventory.length) :
    ∃ res, a.tick others = some res ∧
      (res.1.state = .SearchingForGoal ↔
        (oa.compare_item_values item1 item2.2 ≠ .lt ∧
         a.compare_item_values item1 item2.2 ≠ .gt)) := by
  unfold Actor.tick
  rw [hph]
  unfold tickAct
  rw [hgoal]
  simp only [Option.map_some']
  rw [hstate]
  simp only [hcell, hsat, hlast, hitem1, hpos, hitem2, Option.bind_eq_bind,
    Option.some_bind]
  rw [if_neg hcont]
  by_cases hacc : (oa.compare_item_values item1 item2.2 ≠ Ordering.lt ∧
      a.compare_item_values item1 item2.2 ≠ Ordering.gt)
  · rw [if_pos hacc]
    have h1 : asUsize (p1 - 1) < (a.add_item item2.2).inventory.length := by
      rw [add_item_inventory_length]
      have := getElem?_lt_length hitem1
      omega
    have h2 : item2.1 < (oa.add_item item1).inventory.length := by
      rw [add_item_inventory_length]
      omega
    rw [listRemove?_of_lt h1, listRemove?_of_lt h2]
    simp only [Option.some_bind]
    exact ⟨_, rfl, iff_of_true rfl hacc⟩
  · rw [if_neg hacc, hoa]
    exact ⟨_, rfl, iff_of_false (by simp) hacc⟩

/-- C4 witness: the characterization applied to the Scenario-B round of
c4ActorA and c4ActorB, whose bid is accepted. -/
theorem c4_acceptance_characterized_witness :
    ∃ res, c4ActorA.tick [none, some c4ActorB] = some res ∧
      (res.1.state = .SearchingForGoal ↔
        (c4ActorB.compare_item_values .FoodUnit .HouseUnit ≠ .lt ∧
         c4ActorA.compare_item_values .FoodUnit .HouseUnit ≠ .gt)) :=
  c4_acceptance_characterized c4ActorA c4ActorB [none, some c4ActorB] 1 1 (-1)
    ⟨[], .Shelter⟩ [.HouseUnit] (0, .HouseUnit) .FoodUnit 0 (0, .HouseUnit) 0
    (some .FoodUnit) (some (0, .HouseUnit)) (by decide) (by decide) (by decide)
    (by decide) (by decide) (by decide) (by decide) (by decide) (by decide)
    (by decide) (by decide) (by decide)
